import Mathlib

/-!
Verification of the publish orchestration workflow of `smaug`
(`cli/src/commands/publish.rs`, `Publish::run`).

The filesystem is modelled shallowly: a `FS` is a list of files (path
components paired with contents) together with a list of directory paths.
A path "exists" when it is a (possibly improper) prefix of some recorded
file path or directory path, so intermediate directories exist implicitly.

External collaborators (configuration loading, metadata rendering, the
DragonRuby version lookup, the toolchain process itself) live outside
`cli/src/commands/publish.rs`; their results are supplied through an `Env`
record, and every fallible filesystem primitive of the run additionally
takes an injected-fault flag from `Env` so that the abort behaviour of the
orchestrator on I/O failure can be stated.
-/

namespace Smaug

/-- A filesystem path, as its list of components. -/
abbrev Path := List String

/-- A snapshot of the filesystem: files (path and contents) and directories. -/
structure FS where
  files : List (Path × String)
  dirs : List Path
deriving DecidableEq

/-- A path exists when some recorded file or directory lies at or below it. -/
def FS.existsPath (fs : FS) (p : Path) : Bool :=
  fs.dirs.any (fun d => p.isPrefixOf d) || fs.files.any (fun f => p.isPrefixOf f.1)

/-- A path is a directory when a recorded directory lies at or below it, or a
recorded file lies strictly below it. -/
def FS.isDir (fs : FS) (p : Path) : Bool :=
  fs.dirs.any (fun d => p.isPrefixOf d) ||
    fs.files.any (fun f => p.isPrefixOf f.1 && !(p == f.1))

/-- A file is recorded at exactly this path. -/
def FS.isFile (fs : FS) (p : Path) : Bool :=
  fs.files.any (fun f => f.1 == p)

/-- The contents of the file at this path, if any. -/
def FS.readFile (fs : FS) (p : Path) : Option String :=
  (fs.files.find? (fun f => f.1 == p)).map (fun f => f.2)

/-- Create or overwrite one file. Embeds the collaborator write used for
`metadata.write(...)`; intermediate directories exist implicitly. -/
def FS.writeFile (fs : FS) (p : Path) (c : String) : FS :=
  { files := (p, c) :: fs.files.filter (fun f => !(f.1 == p)), dirs := fs.dirs }

/-- Modelled from the spec: `smaug::util::dir::copy_directory` is not under
`src/`; §4.1 "Directory Mirror": recursively replicates every file and
subdirectory from source into destination, creating destination and missing
intermediate directories, overwriting destination files at colliding relative
paths, and failing if the source does not exist. -/
def copy_directory (fs : FS) (src dst : Path) : Option FS :=
  if fs.isDir src then
    let moved := fs.files.filterMap (fun f =>
      if src.isPrefixOf f.1 then some (dst ++ f.1.drop src.length, f.2) else none)
    let movedDirs := fs.dirs.filterMap (fun d =>
      if src.isPrefixOf d then some (dst ++ d.drop src.length) else none)
    some { files := moved ++ fs.files.filter (fun f => !(moved.any (fun g => g.1 == f.1))),
           dirs := dst :: (movedDirs ++ fs.dirs) }
  else none

/-- Modelled from the spec: `rm_rf::ensure_removed` is an external crate;
§4.2 "Scoped Path Cleaner": removes the path and everything under it if it
exists, and succeeds immediately if it does not. -/
def ensure_removed (fs : FS) (p : Path) : FS :=
  { files := fs.files.filter (fun f => !(p.isPrefixOf f.1)),
    dirs := fs.dirs.filter (fun d => !(p.isPrefixOf d)) }

/-- Modelled from the spec: §3 "Project Descriptor" — the resolved
configuration carries the project name (`config.project.unwrap().name`). -/
structure Config where
  projectName : String
deriving DecidableEq

/-- Modelled from the spec: §3 "Toolchain Handle" — an installed DragonRuby
version exposing its installation directory (`dragonruby.install_dir()`). -/
structure DragonRuby where
  install_dir : Path
deriving DecidableEq

/-- The caller-supplied inputs of `Publish::run`: the canonicalized project
path, the `DRAGONRUBY_ARGS` pass-through options, and the `json` / `quiet`
flags. -/
structure Args where
  path : Path
  dragonruby_options : List String
  json : Bool
  quiet : Bool
deriving DecidableEq

/-- Results of the external collaborators, plus one injected-fault flag per
fallible primitive of the run (each flag makes the corresponding operation
fail when it is executed, standing for an I/O error). -/
structure Env where
  configLoad : Option Config
  metadataContent : String
  metadataWriteFault : Bool
  configured_version : Option DragonRuby
  dragonruby_publish_name : String
  stageCopyFault : Bool
  removeLogsFault : Bool
  removeExceptionsFault : Bool
  spawnFault : Bool
  exit_success : Bool
  toolchainEffect : FS → FS
  buildsCopyFault : Bool
  removeLocalLogsFault : Bool
  removeLocalExceptionsFault : Bool
  logsCopyFault : Bool
  exceptionsCopyFault : Bool
  teardownFault : Bool

/-- The process invocation assembled at lines 93-109 of `publish.rs`. -/
structure ProcessSpec where
  program : Path
  current_dir : Path
  args : List String
  stdout_null : Bool
deriving DecidableEq

/-- The classified run results: `PublishResult` and the `Error` enum. -/
inductive Outcome where
  | publishResult (project_name : String)
  | configError (path : Path)
  | configuredDragonRubyNotFound
  | publishError (project_name : String)
deriving DecidableEq

/-- Either a structured result (`Ok`/`Err` of `CommandResult`) or an abrupt
abort of the process (a failed `expect`/`unwrap`). -/
inductive RunResult where
  | done (outcome : Outcome)
  | abort (msg : String)
deriving DecidableEq

/-- The observable outcome of one run: its result, the final filesystem, and,
when the toolchain process was spawned, the spawned `ProcessSpec` together
with the filesystem at the moment of the spawn. -/
structure RunOutput where
  result : RunResult
  fs : FS
  spawned : Option (ProcessSpec × FS)
deriving DecidableEq

/-- Lines 111-141 of `publish.rs`: the Reconcile, Teardown and Report steps,
entered immediately after the toolchain process has exited.  `fs4` is the
filesystem at spawn time; the toolchain's own writes are `env.toolchainEffect`. -/
def reconcile (args : Args) (env : Env) (config : Config) (bin_dir : Path)
    (base : String) (ps : ProcessSpec) (fs4 : FS) : RunOutput :=
  let build_dir := bin_dir ++ [base]
  let log_dir := build_dir ++ ["logs"]
  let exception_dir := build_dir ++ ["exceptions"]
  let sp := some (ps, fs4)
  let fs5 := env.toolchainEffect fs4
  if env.buildsCopyFault then ⟨.abort "Could not copy builds.", fs5, sp⟩ else
  match copy_directory fs5 (bin_dir ++ ["builds"]) (args.path ++ ["builds"]) with
  | none => ⟨.abort "Could not copy builds.", fs5, sp⟩
  | some fs6 =>
    if env.removeLocalLogsFault then ⟨.abort "Couldn't remove local logs", fs6, sp⟩ else
    let fs7 := ensure_removed fs6 (args.path ++ ["logs"])
    if env.removeLocalExceptionsFault then
      ⟨.abort "Couldn't remove local exceptions", fs7, sp⟩ else
    let fs8 := ensure_removed fs7 (args.path ++ ["exceptions"])
    match (if fs8.isDir log_dir then
        (if env.logsCopyFault then none
         else copy_directory fs8 log_dir (args.path ++ ["logs"]))
      else some fs8) with
    | none => ⟨.abort "couldn't copy logs", fs8, sp⟩
    | some fs9 =>
      match (if fs9.isDir exception_dir then
          (if env.exceptionsCopyFault then none
           else copy_directory fs9 exception_dir (args.path ++ ["exceptions"]))
        else some fs9) with
      | none => ⟨.abort "couldn't copy exceptions", fs9, sp⟩
      | some fs10 =>
        if env.teardownFault then ⟨.abort "Could not clean up build dir", fs10, sp⟩ else
        let fs11 := ensure_removed fs10 build_dir
        if env.exit_success then ⟨.done (.publishResult config.projectName), fs11, sp⟩
        else ⟨.done (.publishError config.projectName), fs11, sp⟩

/-- `Publish::run` (`publish.rs` lines 37-144): resolve the configuration,
write the game metadata, resolve the configured DragonRuby version, stage the
project into the toolchain's installation directory, clear the staging-side
side channels, spawn the publish executable, then reconcile, tear down and
report. -/
def Publish.run (args : Args) (env : Env) (fs0 : FS) : RunOutput :=
  let config_path := args.path ++ ["Smaug.toml"]
  match env.configLoad with
  | none => ⟨.done (.configError config_path), fs0, none⟩
  | some config =>
    if env.metadataWriteFault then ⟨.abort "Could not write game metadata.", fs0, none⟩ else
    let fs1 := fs0.writeFile (args.path ++ ["metadata", "game_metadata.txt"]) env.metadataContent
    match env.configured_version with
    | none => ⟨.done .configuredDragonRubyNotFound, fs1, none⟩
    | some dragonruby =>
      let bin_dir := dragonruby.install_dir
      match args.path.getLast? with
      | none => ⟨.abort "path has no file name", fs1, none⟩
      | some base =>
        let build_dir := bin_dir ++ [base]
        if env.stageCopyFault then ⟨.abort "Could not copy to build directory.", fs1, none⟩ else
        match copy_directory fs1 args.path build_dir with
        | none => ⟨.abort "Could not copy to build directory.", fs1, none⟩
        | some fs2 =>
          let log_dir := build_dir ++ ["logs"]
          let exception_dir := build_dir ++ ["exceptions"]
          if env.removeLogsFault then ⟨.abort "couldn't remove logs", fs2, none⟩ else
          let fs3 := ensure_removed fs2 log_dir
          if env.removeExceptionsFault then ⟨.abort "couldn't remove exceptions", fs3, none⟩ else
          let fs4 := ensure_removed fs3 exception_dir
          let quiet := args.json || args.quiet
          let ps : ProcessSpec :=
            { program := bin_dir ++ [env.dragonruby_publish_name],
              current_dir := bin_dir,
              args := base :: args.dragonruby_options,
              stdout_null := quiet }
          if env.spawnFault then ⟨.abort "could not spawn or wait", fs4, none⟩ else
          reconcile args env config bin_dir base ps fs4

/-! ### Concrete scenario inputs

The end-to-end scenario of §8 of the spec: project root `home/Asteroids`
whose `Smaug.toml` names the project `Asteroids`, DragonRuby installed at
`tc`, publish executable `dragonruby-publish`. -/

/-- Caller inputs of the end-to-end scenario. -/
def exArgs : Args :=
  { path := ["home", "Asteroids"], dragonruby_options := [], json := false, quiet := false }

/-- Configuration of the end-to-end scenario. -/
def exConfig : Config := { projectName := "Asteroids" }

/-- Installed toolchain of the end-to-end scenario. -/
def exDR : DragonRuby := { install_dir := ["tc"] }

/-- Initial filesystem of the end-to-end scenario. -/
def exFS : FS :=
  { files := [(["home", "Asteroids", "Smaug.toml"], "toml"),
              (["home", "Asteroids", "app", "main.rb"], "code")],
    dirs := [["home", "Asteroids"], ["tc"]] }

/-- Fault-free environment in which the toolchain exits successfully and
writes `builds/game.zip` under its own installation directory (the behaviour
`publish.rs` line 111 reads back). -/
def exEnv : Env :=
  { configLoad := some exConfig, metadataContent := "meta",
    metadataWriteFault := false, configured_version := some exDR,
    dragonruby_publish_name := "dragonruby-publish",
    stageCopyFault := false, removeLogsFault := false, removeExceptionsFault := false,
    spawnFault := false, exit_success := true,
    toolchainEffect := fun fs => fs.writeFile ["tc", "builds", "game.zip"] "zip",
    buildsCopyFault := false, removeLocalLogsFault := false,
    removeLocalExceptionsFault := false, logsCopyFault := false,
    exceptionsCopyFault := false, teardownFault := false }

/-- Variant in which the toolchain writes the artifact only into its
workspace copy of the staged project, `tc/Asteroids/builds/game.zip`. -/
def exEnvWorkspaceBuilds : Env :=
  { exEnv with toolchainEffect := fun fs =>
      fs.writeFile ["tc", "Asteroids", "builds", "game.zip"] "zip" }

/-- Initial filesystem carrying a stale log file of a prior run under the
project root. -/
def exFSStale : FS :=
  { exFS with files := (["home", "Asteroids", "logs", "old.txt"], "stale") :: exFS.files }

/-- Variant in which the toolchain exits with a non-success status. -/
def exEnvFail : Env := { exEnv with exit_success := false }

/-- Variant whose configuration declares a DragonRuby version that is not
installed. -/
def exEnvNoTC : Env := { exEnv with configured_version := none }

/-- Variant in which loading `Smaug.toml` fails. -/
def exEnvNoConfig : Env := { exEnv with configLoad := none }

/-- Variant in which writing the game metadata fails. -/
def exEnvMetaFault : Env := { exEnv with metadataWriteFault := true }

/-- The process invocation of the end-to-end scenario. -/
def exSpawnPS : ProcessSpec :=
  { program := ["tc", "dragonruby-publish"], current_dir := ["tc"],
    args := ["Asteroids"], stdout_null := false }

/-- The filesystem at the moment the toolchain process of the end-to-end
scenario is spawned. -/
def exSpawnFS : FS :=
  { files := [(["tc", "Asteroids", "metadata", "game_metadata.txt"], "meta"),
              (["tc", "Asteroids", "Smaug.toml"], "toml"),
              (["tc", "Asteroids", "app", "main.rb"], "code"),
              (["home", "Asteroids", "metadata", "game_metadata.txt"], "meta"),
              (["home", "Asteroids", "Smaug.toml"], "toml"),
              (["home", "Asteroids", "app", "main.rb"], "code")],
    dirs := [["tc", "Asteroids"], ["tc", "Asteroids"], ["home", "Asteroids"], ["tc"]] }

/-! ### Filesystem lemmas -/

lemma existsPath_eq_false_iff {fs : FS} {p : Path} :
    fs.existsPath p = false ↔ (∀ d ∈ fs.dirs, ¬ p <+: d) ∧ ∀ f ∈ fs.files, ¬ p <+: f.1 := by
  simp [FS.existsPath]

lemma existsPath_eq_true_iff {fs : FS} {p : Path} :
    fs.existsPath p = true ↔ (∃ d ∈ fs.dirs, p <+: d) ∨ ∃ f ∈ fs.files, p <+: f.1 := by
  simp [FS.existsPath]

lemma isFile_eq_true_iff {fs : FS} {p : Path} :
    fs.isFile p = true ↔ ∃ f ∈ fs.files, f.1 = p := by
  simp [FS.isFile]

lemma isPrefixOf_eq_false_iff {l₁ l₂ : Path} :
    l₁.isPrefixOf l₂ = false ↔ ¬ l₁ <+: l₂ := by
  rw [← @List.isPrefixOf_iff_prefix String _ _ l₁ l₂]
  exact Bool.eq_false_iff

lemma existsPath_ensure_removed_self (fs : FS) (p : Path) :
    (ensure_removed fs p).existsPath p = false := by
  rw [existsPath_eq_false_iff]
  constructor
  · intro d hd
    rcases List.mem_filter.mp hd with ⟨-, hna⟩
    exact isPrefixOf_eq_false_iff.mp (by simpa using hna)
  · intro f hf
    rcases List.mem_filter.mp hf with ⟨-, hna⟩
    exact isPrefixOf_eq_false_iff.mp (by simpa using hna)

lemma existsPath_ensure_removed_mono {fs : FS} {p q : Path}
    (h : fs.existsPath p = false) : (ensure_removed fs q).existsPath p = false := by
  rw [existsPath_eq_false_iff] at h ⊢
  exact ⟨fun d hd => h.1 d (List.mem_filter.mp hd).1,
         fun f hf => h.2 f (List.mem_filter.mp hf).1⟩

lemma ensure_removed_of_not_exists {fs : FS} {p : Path}
    (h : fs.existsPath p = false) : ensure_removed fs p = fs := by
  rw [existsPath_eq_false_iff] at h
  obtain ⟨files, dirs⟩ := fs
  unfold ensure_removed
  congr 1
  · exact List.filter_eq_self.mpr fun f hf => by
      simpa using isPrefixOf_eq_false_iff.mpr (h.2 f hf)
  · exact List.filter_eq_self.mpr fun d hd => by
      simpa using isPrefixOf_eq_false_iff.mpr (h.1 d hd)

lemma ensure_removed_idem (fs : FS) (p : Path) :
    ensure_removed (ensure_removed fs p) p = ensure_removed fs p :=
  ensure_removed_of_not_exists (existsPath_ensure_removed_self fs p)

lemma isFile_writeFile_self (fs : FS) (p : Path) (c : String) :
    (fs.writeFile p c).isFile p = true := by
  simp [FS.writeFile, FS.isFile]

lemma readFile_writeFile_self (fs : FS) (p : Path) (c : String) :
    (fs.writeFile p c).readFile p = some c := by
  simp [FS.writeFile, FS.readFile, List.find?_cons_of_pos]

lemma existsPath_writeFile_of_not_above {fs : FS} {p q : Path} {c : String}
    (hq : ¬ q <+: p) : (fs.writeFile p c).existsPath q = fs.existsPath q := by
  simp only [FS.writeFile, FS.existsPath, List.any_cons]
  have : (q.isPrefixOf p : Bool) = false := isPrefixOf_eq_false_iff.mpr hq
  rw [this, Bool.false_or]
  congr 1
  rw [Bool.eq_iff_iff]
  simp only [List.any_eq_true, List.mem_filter]
  constructor
  · rintro ⟨f, ⟨hf, -⟩, hpre⟩
    exact ⟨f, hf, hpre⟩
  · rintro ⟨f, hf, hpre⟩
    refine ⟨f, ⟨hf, ?_⟩, hpre⟩
    simp only [Bool.not_eq_eq_eq_not, Bool.not_true, beq_eq_false_iff_ne, ne_eq]
    intro hfp
    rw [hfp] at hpre
    simp at hpre
    exact hq hpre

lemma isFile_ensure_removed_of_not_under {fs : FS} {p q : Path}
    (hq : ¬ q <+: p) : (ensure_removed fs q).isFile p = fs.isFile p := by
  rw [Bool.eq_iff_iff]
  simp only [isFile_eq_true_iff, ensure_removed, List.mem_filter]
  constructor
  · rintro ⟨f, ⟨hf, -⟩, hfp⟩
    exact ⟨f, hf, hfp⟩
  · rintro ⟨f, hf, hfp⟩
    refine ⟨f, ⟨hf, ?_⟩, hfp⟩
    simp only [Bool.not_eq_eq_eq_not, Bool.not_true]
    rw [hfp]
    exact isPrefixOf_eq_false_iff.mpr hq

lemma isFile_copy_directory_src {fs : FS} {src dst : Path} {fs' : FS} {rel : Path}
    (h : copy_directory fs src dst = some fs')
    (hf : fs.isFile (src ++ rel) = true) : fs'.isFile (dst ++ rel) = true := by
  unfold copy_directory at h
  split at h
  · rw [Option.some_inj] at h
    subst h
    rcases isFile_eq_true_iff.mp hf with ⟨f, hfm, hfp⟩
    rw [isFile_eq_true_iff]
    refine ⟨(dst ++ rel, f.2), List.mem_append_left _ ?_, rfl⟩
    rw [List.mem_filterMap]
    refine ⟨f, hfm, ?_⟩
    rw [hfp]
    have hpre : (src.isPrefixOf (src ++ rel) : Bool) = true := by simp
    rw [if_pos hpre]
    simp [List.drop_left]
  · exact absurd h (by simp)

lemma isFile_copy_directory_of_not_under {fs : FS} {src dst : Path} {fs' : FS} {p : Path}
    (h : copy_directory fs src dst = some fs')
    (hp : ¬ dst <+: p) : fs'.isFile p = fs.isFile p := by
  unfold copy_directory at h
  split at h
  · rw [Option.some_inj] at h
    subst h
    have hmoved : ∀ g ∈ fs.files.filterMap (fun f =>
        if src.isPrefixOf f.1 then some (dst ++ f.1.drop src.length, f.2) else none),
        g.1 ≠ p := by
      intro g hg
      rcases List.mem_filterMap.mp hg with ⟨f, -, hfg⟩
      split at hfg
      · cases hfg
        intro hgp
        exact hp (hgp ▸ List.prefix_append dst _)
      · exact absurd hfg (by simp)
    rw [Bool.eq_iff_iff]
    simp only [isFile_eq_true_iff, List.mem_append, List.mem_filter]
    constructor
    · rintro ⟨f, hf | ⟨hf, -⟩, hfp⟩
      · exact absurd hfp (hmoved f hf)
      · exact ⟨f, hf, hfp⟩
    · rintro ⟨f, hf, hfp⟩
      refine ⟨f, Or.inr ⟨hf, ?_⟩, hfp⟩
      simp only [Bool.not_eq_eq_eq_not, Bool.not_true, List.any_eq_false]
      intro g hg
      simp only [beq_iff_eq]
      intro hgf
      exact hmoved g hg (hgf.trans hfp)
  · exact absurd h (by simp)

/-! ### Run characterization lemmas -/

lemma reconcile_spawned (args : Args) (env : Env) (config : Config) (bin_dir : Path)
    (base : String) (ps : ProcessSpec) (fs4 : FS) :
    (reconcile args env config bin_dir base ps fs4).spawned = some (ps, fs4) := by
  simp only [reconcile]
  repeat' split
  all_goals rfl

lemma reconcile_done_char {args : Args} {env : Env} {config : Config} {bin_dir : Path}
    {base : String} {ps : ProcessSpec} {fs4 : FS} {o : Outcome} {fs' : FS}
    {sp : Option (ProcessSpec × FS)}
    (h : reconcile args env config bin_dir base ps fs4 = ⟨RunResult.done o, fs', sp⟩) :
    env.buildsCopyFault = false ∧ env.removeLocalLogsFault = false ∧
    env.removeLocalExceptionsFault = false ∧ env.teardownFault = false ∧
    ∃ fs6 fs9 fs10,
      copy_directory (env.toolchainEffect fs4) (bin_dir ++ ["builds"])
        (args.path ++ ["builds"]) = some fs6 ∧
      (if (ensure_removed (ensure_removed fs6 (args.path ++ ["logs"]))
            (args.path ++ ["exceptions"])).isDir (bin_dir ++ [base] ++ ["logs"]) then
         (if env.logsCopyFault then none
          else copy_directory
            (ensure_removed (ensure_removed fs6 (args.path ++ ["logs"]))
              (args.path ++ ["exceptions"]))
            (bin_dir ++ [base] ++ ["logs"]) (args.path ++ ["logs"]))
       else some (ensure_removed (ensure_removed fs6 (args.path ++ ["logs"]))
            (args.path ++ ["exceptions"]))) = some fs9 ∧
      (if fs9.isDir (bin_dir ++ [base] ++ ["exceptions"]) then
         (if env.exceptionsCopyFault then none
          else copy_directory fs9 (bin_dir ++ [base] ++ ["exceptions"])
            (args.path ++ ["exceptions"]))
       else some fs9) = some fs10 ∧
      fs' = ensure_removed fs10 (bin_dir ++ [base]) ∧
      sp = some (ps, fs4) ∧
      o = (if env.exit_success then Outcome.publishResult config.projectName
           else Outcome.publishError config.projectName) := by
  cases hbc : env.buildsCopyFault
  case true => simp [reconcile, hbc] at h
  case false =>
  cases hcp2 : copy_directory (env.toolchainEffect fs4) (bin_dir ++ ["builds"])
      (args.path ++ ["builds"])
  case none => simp [reconcile, hbc, hcp2] at h
  case some fs6 =>
  cases hrll : env.removeLocalLogsFault
  case true => simp [reconcile, hbc, hcp2, hrll] at h
  case false =>
  cases hrle : env.removeLocalExceptionsFault
  case true => simp [reconcile, hbc, hcp2, hrll, hrle] at h
  case false =>
  simp only [reconcile, hbc, hcp2, hrll, hrle, Bool.false_eq_true, if_false] at h
  cases hls : (if (ensure_removed (ensure_removed fs6 (args.path ++ ["logs"]))
        (args.path ++ ["exceptions"])).isDir (bin_dir ++ [base] ++ ["logs"]) then
      (if env.logsCopyFault then none
       else copy_directory
         (ensure_removed (ensure_removed fs6 (args.path ++ ["logs"]))
           (args.path ++ ["exceptions"]))
         (bin_dir ++ [base] ++ ["logs"]) (args.path ++ ["logs"]))
    else some (ensure_removed (ensure_removed fs6 (args.path ++ ["logs"]))
        (args.path ++ ["exceptions"])))
  case none => rw [hls] at h; simp at h
  case some fs9 =>
  simp only [hls] at h
  cases hes : (if fs9.isDir (bin_dir ++ [base] ++ ["exceptions"]) then
      (if env.exceptionsCopyFault then none
       else copy_directory fs9 (bin_dir ++ [base] ++ ["exceptions"])
         (args.path ++ ["exceptions"]))
    else some fs9)
  case none => simp only [hes] at h; simp at h
  case some fs10 =>
  simp only [hes] at h
  cases htd : env.teardownFault
  case true => rw [htd] at h; simp at h
  case false =>
  simp only [htd, Bool.false_eq_true, if_false] at h
  have hsplit : (if env.exit_success then
        (⟨RunResult.done (Outcome.publishResult config.projectName),
          ensure_removed fs10 (bin_dir ++ [base]), some (ps, fs4)⟩ : RunOutput)
      else ⟨RunResult.done (Outcome.publishError config.projectName),
          ensure_removed fs10 (bin_dir ++ [base]), some (ps, fs4)⟩) =
      ⟨RunResult.done (if env.exit_success then Outcome.publishResult config.projectName
          else Outcome.publishError config.projectName),
        ensure_removed fs10 (bin_dir ++ [base]), some (ps, fs4)⟩ := by
    cases hex : env.exit_success <;> simp [hex]
  rw [hsplit] at h
  injection h with h1 h2 h3
  injection h1 with h1
  exact ⟨rfl, rfl, rfl, rfl, fs6, fs9, fs10, rfl, hls, hes, h2.symm, h3.symm, h1.symm⟩

lemma run_done_main {args : Args} {env : Env} {fs0 : FS} {c : Config} {dr : DragonRuby}
    {o : Outcome} {fs' : FS} {sp : Option (ProcessSpec × FS)}
    (h1 : env.configLoad = some c) (h2 : env.configured_version = some dr)
    (h : Publish.run args env fs0 = ⟨RunResult.done o, fs', sp⟩) :
    env.metadataWriteFault = false ∧ env.stageCopyFault = false ∧
    env.removeLogsFault = false ∧ env.removeExceptionsFault = false ∧
    env.spawnFault = false ∧
    ∃ base fs2,
      args.path.getLast? = some base ∧
      copy_directory
        (fs0.writeFile (args.path ++ ["metadata", "game_metadata.txt"]) env.metadataContent)
        args.path (dr.install_dir ++ [base]) = some fs2 ∧
      reconcile args env c dr.install_dir base
        { program := dr.install_dir ++ [env.dragonruby_publish_name],
          current_dir := dr.install_dir,
          args := base :: args.dragonruby_options,
          stdout_null := args.json || args.quiet }
        (ensure_removed (ensure_removed fs2 (dr.install_dir ++ [base] ++ ["logs"]))
          (dr.install_dir ++ [base] ++ ["exceptions"]))
        = ⟨RunResult.done o, fs', sp⟩ := by
  cases hm : env.metadataWriteFault
  case true => simp [Publish.run, h1, hm] at h
  case false =>
  cases hgl : args.path.getLast?
  case none => simp [Publish.run, h1, h2, hm, hgl] at h
  case some base =>
  cases hsc : env.stageCopyFault
  case true => simp [Publish.run, h1, h2, hm, hgl, hsc] at h
  case false =>
  cases hcp1 : copy_directory
      (fs0.writeFile (args.path ++ ["metadata", "game_metadata.txt"]) env.metadataContent)
      args.path (dr.install_dir ++ [base])
  case none => simp [Publish.run, h1, h2, hm, hgl, hsc, hcp1] at h
  case some fs2 =>
  cases hrl : env.removeLogsFault
  case true => simp [Publish.run, h1, h2, hm, hgl, hsc, hcp1, hrl] at h
  case false =>
  cases hre : env.removeExceptionsFault
  case true => simp [Publish.run, h1, h2, hm, hgl, hsc, hcp1, hrl, hre] at h
  case false =>
  cases hsw : env.spawnFault
  case true => simp [Publish.run, h1, h2, hm, hgl, hsc, hcp1, hrl, hre, hsw] at h
  case false =>
  simp only [Publish.run, h1, h2, hm, hgl, hsc, hcp1, hrl, hre, hsw,
    Bool.false_eq_true, if_false] at h
  exact ⟨rfl, rfl, rfl, rfl, rfl, base, fs2, rfl, hcp1, h⟩

lemma run_spawned_main {args : Args} {env : Env} {fs0 : FS} {ps : ProcessSpec} {fsInv : FS}
    (h : (Publish.run args env fs0).spawned = some (ps, fsInv)) :
    ∃ config dr base fs2,
      env.configLoad = some config ∧ env.configured_version = some dr ∧
      args.path.getLast? = some base ∧
      copy_directory
        (fs0.writeFile (args.path ++ ["metadata", "game_metadata.txt"]) env.metadataContent)
        args.path (dr.install_dir ++ [base]) = some fs2 ∧
      fsInv = ensure_removed (ensure_removed fs2 (dr.install_dir ++ [base] ++ ["logs"]))
        (dr.install_dir ++ [base] ++ ["exceptions"]) ∧
      ps = { program := dr.install_dir ++ [env.dragonruby_publish_name],
             current_dir := dr.install_dir,
             args := base :: args.dragonruby_options,
             stdout_null := args.json || args.quiet } := by
  cases h1 : env.configLoad
  case none => simp [Publish.run, h1] at h
  case some config =>
  cases hm : env.metadataWriteFault
  case true => simp [Publish.run, h1, hm] at h
  case false =>
  cases h2 : env.configured_version
  case none => simp [Publish.run, h1, hm, h2] at h
  case some dr =>
  cases hgl : args.path.getLast?
  case none => simp [Publish.run, h1, h2, hm, hgl] at h
  case some base =>
  cases hsc : env.stageCopyFault
  case true => simp [Publish.run, h1, h2, hm, hgl, hsc] at h
  case false =>
  cases hcp1 : copy_directory
      (fs0.writeFile (args.path ++ ["metadata", "game_metadata.txt"]) env.metadataContent)
      args.path (dr.install_dir ++ [base])
  case none => simp [Publish.run, h1, h2, hm, hgl, hsc, hcp1] at h
  case some fs2 =>
  cases hrl : env.removeLogsFault
  case true => simp [Publish.run, h1, h2, hm, hgl, hsc, hcp1, hrl] at h
  case false =>
  cases hre : env.removeExceptionsFault
  case true => simp [Publish.run, h1, h2, hm, hgl, hsc, hcp1, hrl, hre] at h
  case false =>
  cases hsw : env.spawnFault
  case true => simp [Publish.run, h1, h2, hm, hgl, hsc, hcp1, hrl, hre, hsw] at h
  case false =>
  simp only [Publish.run, h1, h2, hm, hgl, hsc, hcp1, hrl, hre, hsw,
    Bool.false_eq_true, if_false] at h
  rw [reconcile_spawned] at h
  simp only [Option.some_inj, Prod.mk.injEq] at h
  obtain ⟨hps, hfs⟩ := h
  exact ⟨config, dr, base, fs2, rfl, rfl, rfl, hcp1, hfs.symm, hps.symm⟩

lemma not_prefix_sibling {l : Path} {a b : String} {r : Path} (hab : a ≠ b) :
    ¬ (l ++ [a]) <+: ((l ++ [b]) ++ r) := by
  rw [List.append_assoc, List.singleton_append, List.prefix_append_right_inj,
    List.cons_prefix_cons]
  rintro ⟨h, -⟩
  exact hab h

/-! ### Claims -/

/-- C7 (confirmed): when loading `Smaug.toml` fails, the run terminates with
`ConfigError` carrying exactly the attempted configuration-file path, the
filesystem is untouched, and the toolchain process is never spawned. -/
theorem config_error_is_terminal (args : Args) (env : Env) (fs0 : FS)
    (h : env.configLoad = none) :
    Publish.run args env fs0 =
      ⟨RunResult.done (Outcome.configError (args.path ++ ["Smaug.toml"])), fs0, none⟩ := by
  simp [Publish.run, h]

/-- Witness for C7 at the end-to-end scenario inputs. -/
theorem config_error_is_terminal_w :
    exEnvNoConfig.configLoad = none ∧
    Publish.run exArgs exEnvNoConfig exFS =
      ⟨RunResult.done (Outcome.configError ["home", "Asteroids", "Smaug.toml"]), exFS, none⟩ :=
  ⟨rfl, config_error_is_terminal exArgs exEnvNoConfig exFS rfl⟩

/-- C6 (confirmed): when the configured DragonRuby version is not installed,
the run produces `ConfiguredDragonRubyNotFound`, never spawns the toolchain,
and the only filesystem change is the metadata file under the project root:
every path that is not an ancestor-or-self of that file is untouched, so
nothing is created under the toolchain installation directory. -/
theorem missing_toolchain_aborts_before_staging (args : Args) (env : Env) (fs0 : FS)
    (c : Config) (h1 : env.configLoad = some c) (h2 : env.configured_version = none)
    (h3 : env.metadataWriteFault = false) :
    Publish.run args env fs0 =
      ⟨RunResult.done Outcome.configuredDragonRubyNotFound,
        fs0.writeFile (args.path ++ ["metadata", "game_metadata.txt"]) env.metadataContent,
        none⟩ ∧
    ∀ q : Path, ¬ q <+: (args.path ++ ["metadata", "game_metadata.txt"]) →
      (fs0.writeFile (args.path ++ ["metadata", "game_metadata.txt"])
          env.metadataContent).existsPath q = fs0.existsPath q :=
  ⟨by simp [Publish.run, h1, h2, h3], fun _ hq => existsPath_writeFile_of_not_above hq⟩

/-- Witness for C6: version `9.9` is not installed; nothing appears under
`tc` and the toolchain is never spawned. -/
theorem missing_toolchain_aborts_before_staging_w :
    exEnvNoTC.configLoad = some exConfig ∧ exEnvNoTC.configured_version = none ∧
    exEnvNoTC.metadataWriteFault = false ∧
    Publish.run exArgs exEnvNoTC exFS =
      ⟨RunResult.done Outcome.configuredDragonRubyNotFound,
        exFS.writeFile ["home", "Asteroids", "metadata", "game_metadata.txt"] "meta",
        none⟩ ∧
    (exFS.writeFile ["home", "Asteroids", "metadata", "game_metadata.txt"]
        "meta").existsPath ["tc", "Asteroids"] = exFS.existsPath ["tc", "Asteroids"] :=
  ⟨rfl, rfl, rfl,
    (missing_toolchain_aborts_before_staging exArgs exEnvNoTC exFS exConfig rfl rfl rfl).1,
    (missing_toolchain_aborts_before_staging exArgs exEnvNoTC exFS exConfig rfl rfl
      rfl).2 ["tc", "Asteroids"] (by decide)⟩

/-- C10 (confirmed): the metadata file is written before the toolchain-version
lookup, so a run failing with `ConfiguredDragonRubyNotFound` has already
created or overwritten `metadata/game_metadata.txt` under the project root. -/
theorem metadata_written_before_toolchain_lookup (args : Args) (env : Env) (fs0 : FS)
    (c : Config) (h1 : env.configLoad = some c) (h2 : env.configured_version = none)
    (h3 : env.metadataWriteFault = false) :
    (Publish.run args env fs0).result = RunResult.done Outcome.configuredDragonRubyNotFound ∧
    (Publish.run args env fs0).fs.isFile (args.path ++ ["metadata", "game_metadata.txt"])
      = true ∧
    (Publish.run args env fs0).fs.readFile (args.path ++ ["metadata", "game_metadata.txt"])
      = some env.metadataContent := by
  have hrun : Publish.run args env fs0 =
      ⟨RunResult.done Outcome.configuredDragonRubyNotFound,
        fs0.writeFile (args.path ++ ["metadata", "game_metadata.txt"]) env.metadataContent,
        none⟩ := by
    simp [Publish.run, h1, h2, h3]
  rw [hrun]
  exact ⟨rfl, isFile_writeFile_self _ _ _, readFile_writeFile_self _ _ _⟩

/-- Witness for C10. -/
theorem metadata_written_before_toolchain_lookup_w :
    exEnvNoTC.configLoad = some exConfig ∧ exEnvNoTC.configured_version = none ∧
    exEnvNoTC.metadataWriteFault = false ∧
    (Publish.run exArgs exEnvNoTC exFS).result
      = RunResult.done Outcome.configuredDragonRubyNotFound ∧
    (Publish.run exArgs exEnvNoTC exFS).fs.isFile
      ["home", "Asteroids", "metadata", "game_metadata.txt"] = true ∧
    (Publish.run exArgs exEnvNoTC exFS).fs.readFile
      ["home", "Asteroids", "metadata", "game_metadata.txt"] = some "meta" :=
  ⟨rfl, rfl, rfl,
    (metadata_written_before_toolchain_lookup exArgs exEnvNoTC exFS exConfig rfl rfl rfl).1,
    (metadata_written_before_toolchain_lookup exArgs exEnvNoTC exFS exConfig rfl rfl rfl).2.1,
    (metadata_written_before_toolchain_lookup exArgs exEnvNoTC exFS exConfig rfl rfl rfl).2.2⟩

/-- C4 (confirmed): a run that reaches the Report step yields success carrying
the configured project name exactly when the toolchain exited successfully,
and `PublishError` carrying the same name otherwise. -/
theorem outcome_matches_exit_status {args : Args} {env : Env} {fs0 : FS} {c : Config}
    {dr : DragonRuby} {o : Outcome}
    (h1 : env.configLoad = some c) (h2 : env.configured_version = some dr)
    (h : (Publish.run args env fs0).result = RunResult.done o) :
    o = (if env.exit_success then Outcome.publishResult c.projectName
         else Outcome.publishError c.projectName) := by
  have hE : Publish.run args env fs0 =
      ⟨RunResult.done o, (Publish.run args env fs0).fs,
        (Publish.run args env fs0).spawned⟩ := by
    rw [← h]
  obtain ⟨-, -, -, -, -, base, fs2, -, -, hrec⟩ := run_done_main h1 h2 hE
  obtain ⟨-, -, -, -, fs6, fs9, fs10, -, -, -, -, -, ho⟩ := reconcile_done_char hrec
  exact ho

/-- Witness for C4 at the successful end-to-end scenario. -/
theorem outcome_matches_exit_status_w :
    exEnv.configLoad = some exConfig ∧ exEnv.configured_version = some exDR ∧
    (Publish.run exArgs exEnv exFS).result
      = RunResult.done (Outcome.publishResult "Asteroids") ∧
    Outcome.publishResult "Asteroids"
      = (if exEnv.exit_success then Outcome.publishResult exConfig.projectName
         else Outcome.publishError exConfig.projectName) :=
  ⟨rfl, rfl, by decide,
    @outcome_matches_exit_status exArgs exEnv exFS exConfig exDR
      (Outcome.publishResult "Asteroids") rfl rfl (by decide)⟩

/-- C2 counterexample: a run that completes Stage and Invoke but whose
Reconcile `builds` copy fails aborts before Teardown, leaving the Staging
Area `tc/Asteroids` behind — the claim's teardown guarantee fails. -/
theorem staging_left_behind_on_reconcile_abort :
    (Publish.run exArgs exEnvWorkspaceBuilds exFS).spawned.isSome = true ∧
    (Publish.run exArgs exEnvWorkspaceBuilds exFS).result
      = RunResult.abort "Could not copy builds." ∧
    (Publish.run exArgs exEnvWorkspaceBuilds exFS).fs.existsPath ["tc", "Asteroids"] = true :=
  ⟨rfl, rfl, rfl⟩

/-- C2 (corrected): for a run that produces a structured outcome — i.e. in
which the spawn and every Reconcile and Teardown filesystem operation
succeeded — the Staging Area does not exist afterwards, regardless of the
toolchain's exit status. -/
theorem teardown_on_structured_outcome {args : Args} {env : Env} {fs0 : FS} {c : Config}
    {dr : DragonRuby} {o : Outcome} {b : String}
    (h1 : env.configLoad = some c) (h2 : env.configured_version = some dr)
    (hb : args.path.getLast? = some b)
    (h : (Publish.run args env fs0).result = RunResult.done o) :
    (Publish.run args env fs0).fs.existsPath (dr.install_dir ++ [b]) = false := by
  have hE : Publish.run args env fs0 =
      ⟨RunResult.done o, (Publish.run args env fs0).fs,
        (Publish.run args env fs0).spawned⟩ := by
    rw [← h]
  obtain ⟨-, -, -, -, -, base, fs2, hbase, -, hrec⟩ := run_done_main h1 h2 hE
  obtain rfl : base = b := Option.some_inj.mp (hbase.symm.trans hb)
  obtain ⟨-, -, -, -, fs6, fs9, fs10, -, -, -, hfs, -, -⟩ := reconcile_done_char hrec
  rw [hfs]
  exact existsPath_ensure_removed_self _ _

/-- Witness for C2 at the scenario whose toolchain exits unsuccessfully: the
run reports `PublishError` and the staging area is still removed. -/
theorem teardown_on_structured_outcome_w :
    exEnvFail.configLoad = some exConfig ∧ exEnvFail.configured_version = some exDR ∧
    exArgs.path.getLast? = some "Asteroids" ∧
    (Publish.run exArgs exEnvFail exFS).result
      = RunResult.done (Outcome.publishError "Asteroids") ∧
    (Publish.run exArgs exEnvFail exFS).fs.existsPath
      (exDR.install_dir ++ ["Asteroids"]) = false :=
  ⟨rfl, rfl, rfl, by decide,
    @teardown_on_structured_outcome exArgs exEnvFail exFS exConfig exDR
      (Outcome.publishError "Asteroids") "Asteroids" rfl rfl rfl (by decide)⟩

/-- C3 counterexample: with a stale `logs/old.txt` under the project root, the
filesystem at the moment the toolchain is spawned still contains it — the
project-side log directory is neither absent nor empty at Invoke (it is only
cleared later, during Reconcile). -/
theorem stale_project_logs_visible_at_invoke :
    (Publish.run exArgs exEnv exFSStale).spawned.map
      (fun q => q.2.existsPath ["home", "Asteroids", "logs", "old.txt"]) = some true ∧
    (Publish.run exArgs exEnv exFSStale).spawned.map
      (fun q => q.2.existsPath ["home", "Asteroids", "logs"]) = some true :=
  ⟨rfl, rfl⟩

/-- C3 (corrected): at the moment the toolchain process is spawned, the
staging-side log and exception directories are absent; the project-side
copies are not guaranteed clear until Reconcile. -/
theorem staging_side_channels_clear_at_invoke {args : Args} {env : Env} {fs0 : FS}
    {ps : ProcessSpec} {fsInv : FS} {dr : DragonRuby}
    (h2 : env.configured_version = some dr)
    (h : (Publish.run args env fs0).spawned = some (ps, fsInv)) :
    ∃ b, args.path.getLast? = some b ∧
      fsInv.existsPath (dr.install_dir ++ [b] ++ ["logs"]) = false ∧
      fsInv.existsPath (dr.install_dir ++ [b] ++ ["exceptions"]) = false := by
  obtain ⟨config, dr', base, fs2, -, h2', hbase, -, hfs, -⟩ := run_spawned_main h
  obtain rfl : dr = dr' := Option.some_inj.mp (h2.symm.trans h2')
  refine ⟨base, hbase, ?_, ?_⟩
  · rw [hfs]
    exact existsPath_ensure_removed_mono (existsPath_ensure_removed_self _ _)
  · rw [hfs]
    exact existsPath_ensure_removed_self _ _

/-- Witness for C3's staging-side guarantee at the end-to-end scenario. -/
theorem staging_side_channels_clear_at_invoke_w :
    exEnv.configured_version = some exDR ∧
    (Publish.run exArgs exEnv exFS).spawned = some (exSpawnPS, exSpawnFS) ∧
    (∃ b, exArgs.path.getLast? = some b ∧
      exSpawnFS.existsPath (exDR.install_dir ++ [b] ++ ["logs"]) = false ∧
      exSpawnFS.existsPath (exDR.install_dir ++ [b] ++ ["exceptions"]) = false) :=
  ⟨rfl, by decide,
    @staging_side_channels_clear_at_invoke exArgs exEnv exFS exSpawnPS exSpawnFS exDR
      rfl (by decide)⟩

/-- C8 (confirmed): whenever the toolchain process is spawned, its executable
is `<install_dir>/<publish_executable>`, its working directory is the install
directory, its argv is the staged directory's base name followed by the
pass-through arguments, and stdout is suppressed exactly when `json` or
`quiet` was requested. -/
theorem invocation_surface {args : Args} {env : Env} {fs0 : FS}
    {ps : ProcessSpec} {fsInv : FS} {dr : DragonRuby}
    (h2 : env.configured_version = some dr)
    (h : (Publish.run args env fs0).spawned = some (ps, fsInv)) :
    ps.program = dr.install_dir ++ [env.dragonruby_publish_name] ∧
    ps.current_dir = dr.install_dir ∧
    (∃ b, args.path.getLast? = some b ∧ ps.args = b :: args.dragonruby_options) ∧
    ps.stdout_null = (args.json || args.quiet) := by
  obtain ⟨config, dr', base, fs2, -, h2', hbase, -, -, hps⟩ := run_spawned_main h
  obtain rfl : dr = dr' := Option.some_inj.mp (h2.symm.trans h2')
  rw [hps]
  exact ⟨rfl, rfl, ⟨base, hbase, rfl⟩, rfl⟩

/-- Witness for C8 at the end-to-end scenario. -/
theorem invocation_surface_w :
    exEnv.configured_version = some exDR ∧
    (Publish.run exArgs exEnv exFS).spawned = some (exSpawnPS, exSpawnFS) ∧
    exSpawnPS.program = exDR.install_dir ++ [exEnv.dragonruby_publish_name] ∧
    exSpawnPS.current_dir = exDR.install_dir ∧
    (∃ b, exArgs.path.getLast? = some b ∧
      exSpawnPS.args = b :: exArgs.dragonruby_options) ∧
    exSpawnPS.stdout_null = (exArgs.json || exArgs.quiet) := by
  have h := @invocation_surface exArgs exEnv exFS exSpawnPS exSpawnFS exDR rfl
    (show (Publish.run exArgs exEnv exFS).spawned = some (exSpawnPS, exSpawnFS) by decide)
  exact ⟨rfl, by decide, h.1, h.2.1, h.2.2.1, h.2.2.2⟩

/-- C9 (confirmed): the Scoped Path Cleaner is idempotent — clearing an
absent path leaves the filesystem unchanged, and clearing twice equals
clearing once. -/
theorem scoped_cleaner_idempotent :
    (∀ (fs : FS) (p : Path), fs.existsPath p = false → ensure_removed fs p = fs) ∧
    (∀ (fs : FS) (p : Path), ensure_removed (ensure_removed fs p) p = ensure_removed fs p) :=
  ⟨fun _ _ h => ensure_removed_of_not_exists h, fun fs p => ensure_removed_idem fs p⟩

/-- Witness for C9. -/
theorem scoped_cleaner_idempotent_w :
    FS.existsPath ⟨[], []⟩ ["a"] = false ∧
    ensure_removed ⟨[], []⟩ ["a"] = ⟨[], []⟩ ∧
    ensure_removed (ensure_removed exFS ["tc"]) ["tc"] = ensure_removed exFS ["tc"] :=
  ⟨by decide, scoped_cleaner_idempotent.1 ⟨[], []⟩ ["a"] (by decide),
    scoped_cleaner_idempotent.2 exFS ["tc"]⟩

/-- C1 counterexample: in the end-to-end scenario where the toolchain writes
`builds/game.zip` only into its workspace copy `tc/Asteroids/builds/`, the run
aborts at the builds copy (its source `tc/builds` does not exist) and
`home/Asteroids/builds/game.zip` does not exist after the run — the Reconcile
step does not mirror the staging area's `builds` subdirectory. -/
theorem workspace_builds_artifact_not_published :
    (Publish.run exArgs exEnvWorkspaceBuilds exFS).spawned.map
      (fun q => (exEnvWorkspaceBuilds.toolchainEffect q.2).isFile
        ["tc", "Asteroids", "builds", "game.zip"]) = some true ∧
    (Publish.run exArgs exEnvWorkspaceBuilds exFS).result
      = RunResult.abort "Could not copy builds." ∧
    (Publish.run exArgs exEnvWorkspaceBuilds exFS).fs.existsPath
      ["home", "Asteroids", "builds", "game.zip"] = false :=
  ⟨rfl, rfl, rfl⟩

/-- C1 (corrected): Reconcile mirrors the toolchain installation directory's
`builds` subdirectory (`<install_dir>/builds`), not the staging area's, into
the project root's `builds`; an artifact the toolchain writes under
`<install_dir>/builds` is present under `<project_root>/builds` after any run
that produces a structured outcome. -/
theorem builds_mirrored_from_install_dir {args : Args} {env : Env} {fs0 : FS} {c : Config}
    {dr : DragonRuby} {o : Outcome} {b : String} {rel : Path}
    (h1 : env.configLoad = some c) (h2 : env.configured_version = some dr)
    (hb : args.path.getLast? = some b)
    (heff : ∀ fs : FS,
      (env.toolchainEffect fs).isFile (dr.install_dir ++ ["builds"] ++ rel) = true)
    (hout : ¬ (dr.install_dir ++ [b]) <+: (args.path ++ ["builds"] ++ rel))
    (h : (Publish.run args env fs0).result = RunResult.done o) :
    (Publish.run args env fs0).fs.isFile (args.path ++ ["builds"] ++ rel) = true := by
  have hE : Publish.run args env fs0 =
      ⟨RunResult.done o, (Publish.run args env fs0).fs,
        (Publish.run args env fs0).spawned⟩ := by
    rw [← h]
  obtain ⟨-, -, -, -, -, base, fs2, hbase, -, hrec⟩ := run_done_main h1 h2 hE
  obtain rfl : base = b := Option.some_inj.mp (hbase.symm.trans hb)
  obtain ⟨-, -, -, -, fs6, fs9, fs10, hcp, hls, hes, hfs, -, -⟩ := reconcile_done_char hrec
  have hlogs_ne : ¬ (args.path ++ ["logs"]) <+: ((args.path ++ ["builds"]) ++ rel) :=
    not_prefix_sibling (by decide)
  have hexc_ne : ¬ (args.path ++ ["exceptions"]) <+: ((args.path ++ ["builds"]) ++ rel) :=
    not_prefix_sibling (by decide)
  have h6 : fs6.isFile (args.path ++ ["builds"] ++ rel) = true :=
    isFile_copy_directory_src hcp (heff _)
  have h8 : (ensure_removed (ensure_removed fs6 (args.path ++ ["logs"]))
      (args.path ++ ["exceptions"])).isFile (args.path ++ ["builds"] ++ rel) = true := by
    rw [isFile_ensure_removed_of_not_under hexc_ne,
      isFile_ensure_removed_of_not_under hlogs_ne]
    exact h6
  have h9 : fs9.isFile (args.path ++ ["builds"] ++ rel) = true := by
    revert hls
    split
    · split
      · intro hls
        exact absurd hls (by simp)
      · intro hls
        rw [isFile_copy_directory_of_not_under hls hlogs_ne]
        exact h8
    · intro hls
      obtain rfl := Option.some_inj.mp hls
      exact h8
  have h10 : fs10.isFile (args.path ++ ["builds"] ++ rel) = true := by
    revert hes
    split
    · split
      · intro hes
        exact absurd hes (by simp)
      · intro hes
        rw [isFile_copy_directory_of_not_under hes hexc_ne]
        exact h9
    · intro hes
      obtain rfl := Option.some_inj.mp hes
      exact h9
  rw [hfs, isFile_ensure_removed_of_not_under hout]
  exact h10

/-- Witness for C1 (corrected) at the end-to-end scenario: the toolchain
writes `tc/builds/game.zip`, and `home/Asteroids/builds/game.zip` exists
after the successful run. -/
theorem builds_mirrored_from_install_dir_w :
    exEnv.configLoad = some exConfig ∧ exEnv.configured_version = some exDR ∧
    exArgs.path.getLast? = some "Asteroids" ∧
    (∀ fs : FS, (exEnv.toolchainEffect fs).isFile
      (exDR.install_dir ++ ["builds"] ++ ["game.zip"]) = true) ∧
    ¬ (exDR.install_dir ++ ["Asteroids"]) <+: (exArgs.path ++ ["builds"] ++ ["game.zip"]) ∧
    (Publish.run exArgs exEnv exFS).result
      = RunResult.done (Outcome.publishResult "Asteroids") ∧
    (Publish.run exArgs exEnv exFS).fs.isFile
      (exArgs.path ++ ["builds"] ++ ["game.zip"]) = true :=
  ⟨rfl, rfl, rfl, fun fs => isFile_writeFile_self fs ["tc", "builds", "game.zip"] "zip",
    by decide, by decide,
    @builds_mirrored_from_install_dir exArgs exEnv exFS exConfig exDR
      (Outcome.publishResult "Asteroids") "Asteroids" ["game.zip"] rfl rfl rfl
      (fun fs => isFile_writeFile_self fs ["tc", "builds", "game.zip"] "zip")
      (by decide) (by decide)⟩

end Smaug
